import Mathlib

/-!
Verification development for the Youtube-downloader repository
(React Native mobile client and its wrapper/controller layer).

The TypeScript sources are shallowly embedded: pure functions become Lean
functions, JS numbers become Int/Nat/ℚ (with NaN modelled as `none` where a
computation can produce it), JS `undefined`/absent fields become `Option`,
and the stateful DownloadController becomes explicit state passing over a
task/controller state type.  Regular-expression operations of the source are
translated into explicit character-list scans with the same semantics.
-/

namespace YTD

/-- JS whitespace (the ASCII portion of the regex class `\s` and of
`String.prototype.trim`), sufficient for the strings these functions see. -/
def isJsSpace (c : Char) : Bool :=
  c == ' ' || c == '\t' || c == '\n' || c == '\r'

/-- JS `String.prototype.trim()`: drop whitespace from both ends. -/
def trimJs (s : String) : String :=
  (((s.toList.dropWhile isJsSpace).reverse.dropWhile isJsSpace).reverse).asString

/-- JS `toLowerCase` on one character (ASCII range, which is all the callers
use: URL schemes and the view-count suffixes K/M/B). -/
def toLowerChar (c : Char) : Char :=
  if 'A' ≤ c ∧ c ≤ 'Z' then Char.ofNat (c.toNat + 32) else c

/-- JS `String.prototype.toLowerCase()`. -/
def toLowerStr (s : String) : String :=
  (s.toList.map toLowerChar).asString

/-- List-level map used when stating facts about `toLowerStr`. -/
def toLowerList (cs : List Char) : List Char :=
  cs.map toLowerChar

/-- JS `String(n).padStart(2, "0")`: left-pad with zeros to length two. -/
def padStart2 (s : String) : String :=
  if s.length ≥ 2 then s else if s.length = 1 then "0" ++ s else "00" ++ s

/-- Embedding of `formatDuration` (src/unnamed/part_003).  The source takes a
JS number; the claims concern integer inputs, so the argument is `Int`.
`Math.floor` of the integer divisions coincides with `Nat` division. -/
def formatDuration (duration : Int) : String :=
  if duration < 0 then "Unknown"
  else
    let n := duration.toNat
    let hours := n / 3600
    let minutes := (n % 3600) / 60
    let seconds := n % 60
    if hours > 0 then
      toString hours ++ ":" ++ padStart2 (toString minutes) ++ ":" ++
        padStart2 (toString seconds)
    else
      toString minutes ++ ":" ++ padStart2 (toString seconds)

/-- Numeric value of a list of decimal digits. -/
def digitsVal (cs : List Char) : Nat :=
  cs.foldl (fun acc c => acc * 10 + (c.toNat - '0'.toNat)) 0

/-- JS `parseFloat` restricted to strings over the class `[\d.]` (all that
the view-count regex can capture).  It reads an integer part, then an
optional dot and fractional part, and is NaN (`none`) when no digit was
read.  The parsed value is the exact rational `n / 10 ^ k`, kept as the
pair `(n, k)` so that everything stays kernel-computable. -/
def parseFloatDigits (s : String) : Option (Nat × Nat) :=
  let cs := s.toList
  let intPart := cs.takeWhile Char.isDigit
  let rest := cs.drop intPart.length
  let fracPart :=
    match rest with
    | '.' :: r => r.takeWhile Char.isDigit
    | _ => []
  if intPart.isEmpty && fracPart.isEmpty then none
  else some (digitsVal (intPart ++ fracPart), fracPart.length)

/-- Rational value of a `parseFloatDigits` result. -/
def ratOfFloat (p : Nat × Nat) : ℚ :=
  (p.1 : ℚ) / 10 ^ p.2

/-- JS `Math.round` (round half toward positive infinity) applied to the
non-negative fraction `n / d`, computed in `Nat` arithmetic. -/
def jsRoundPos (n d : Nat) : Nat :=
  (2 * n + d) / (2 * d)

/-- Characters matched by the regex class `[\d.]`. -/
def isNumChar (c : Char) : Bool :=
  c.isDigit || c == '.'

/-- Match of the anchored regex `^([\d.]+)\s*([kmb])?$` (the text has already
been lowercased).  Returns the captured number string and optional suffix. -/
def matchViewPattern (s : String) : Option (String × Option Char) :=
  let cs := s.toList
  let numPart := cs.takeWhile isNumChar
  if numPart.isEmpty then none
  else
    let rest := (cs.drop numPart.length).dropWhile isJsSpace
    match rest with
    | [] => some (numPart.asString, none)
    | [c] =>
      if c == 'k' || c == 'm' || c == 'b' then some (numPart.asString, some c)
      else none
    | _ => none

/-- Replacement of the first match of `/\s*views?\s*$/i` by the empty string
(on an already-lowercased input): remove a final run of whitespace, a final
`views` or `view`, and the whitespace run immediately before it; if the
string does not end that way it is returned unchanged. -/
def stripViewsSuffix (s : String) : String :=
  let rcs := s.toList.reverse
  let afterWs := rcs.dropWhile isJsSpace
  if afterWs.take 5 == ['s', 'w', 'e', 'i', 'v'] then
    ((afterWs.drop 5).dropWhile isJsSpace).reverse.asString
  else if afterWs.take 4 == ['w', 'e', 'i', 'v'] then
    ((afterWs.drop 4).dropWhile isJsSpace).reverse.asString
  else s

/-- Scale factor selected by the switch on the captured suffix. -/
def viewScale (suffix : Option Char) : Nat :=
  match suffix with
  | some 'k' => 1000
  | some 'm' => 1000000
  | some 'b' => 1000000000
  | _ => 1

/-- Embedding of `parseViewCount` (src/unnamed/part_003).  The JS return type
`number | undefined` is `Option (Option Int)`: `none` is `undefined`,
`some none` is the number NaN (produced when `parseFloat` fails on a
dots-only capture), `some (some k)` an actual integer.
`Math.round (number * scale)` with `number = n / 10 ^ k` is computed as
`jsRoundPos (n * scale) (10 ^ k)`; the theorem `c6_parseViewCount` records
that this equals `round` of the exact rational. -/
def parseViewCount (viewCountText : String) : Option (Option Int) :=
  if viewCountText == "" then none
  else
    let text := trimJs (stripViewsSuffix (toLowerStr viewCountText))
    match matchViewPattern text with
    | none => none
    | some (numStr, suffix) =>
      match parseFloatDigits numStr with
      | none => some none
      | some p => some (some (jsRoundPos (p.1 * viewScale suffix) (10 ^ p.2) : Int))

/-- Decidable prefix test on character lists. -/
def isPrefixList : List Char → List Char → Bool
  | [], _ => true
  | _ :: _, [] => false
  | a :: as, b :: bs => a == b && isPrefixList as bs

/-- Decidable contiguous-sublist test on character lists. -/
def hasSubList (sub : List Char) : List Char → Bool
  | [] => sub.isEmpty
  | c :: cs => isPrefixList sub (c :: cs) || hasSubList sub cs

/-- Embedding of `isUrl` (App.tsx line 28): the regex test
`/^https?:\/\//i.test(value.trim())`. -/
def isUrl (value : String) : Bool :=
  let t := toLowerList (trimJs value).toList
  isPrefixList "http://".toList t || isPrefixList "https://".toList t

/-- Embedding of `isPlaylistUrl` (App.tsx line 29): the regex test
`/[?&]list=/.test(value)`. -/
def isPlaylistUrl (value : String) : Bool :=
  hasSubList "?list=".toList value.toList || hasSubList "&list=".toList value.toList

/-- Embedding of the `VideoInfo` model type (src/unnamed/part_007).  JS
numbers are embedded as `Int`, with `none` standing for NaN in `duration`
(variant B's `parseInt` arithmetic can produce it); `viewCount`'s JS type
`number | undefined | null` is `Option (Option Int)` exactly as in
`parseViewCount`. -/
structure VideoInfo where
  videoId : String
  title : String
  thumbnailUrl : String
  duration : Option Int
  channel : String
  viewCount : Option (Option Int)
  uploadDate : Option String
  url : String
  isPlaylist : Bool
  playlistCount : Option Int := none
deriving DecidableEq, Repr

/-- Embedding of the `SearchResult` model type (src/unnamed/part_007). -/
structure SearchResult where
  videos : List VideoInfo
  query : String
  page : Nat
  hasMore : Bool
deriving DecidableEq, Repr

/-- First truthy value of a JS `a || b` chain over possibly-absent strings
(`none` = absent/undefined, `some ""` is falsy). -/
def jsOr (a b : Option String) : Option String :=
  match a with
  | some s => if s == "" then b else some s
  | none => b

/-- Truthy string of an optional value, as JS `cond ? ... : ...` sees it. -/
def truthyStr : Option String → Bool
  | some s => s != ""
  | none => false

/-- Shape of the duck-typed `title` field distinguished by variant A's
`getItemTitle`: a plain string, a truthy object carrying a `text` key
(whose value may fail the `typeof === "string"` test, hence `Option`), or
anything else. -/
inductive TitleVal
  | str (s : String)
  | objText (t : Option String)
  | other
deriving DecidableEq, Repr

/-- Shape of the `author` field distinguished by `getItemAuthor`
(string, object with a `name` key, or anything else). -/
inductive AuthorVal
  | str (s : String)
  | objName (n : Option String)
  | other
deriving DecidableEq, Repr

/-- Shape of the `duration` field distinguished by `getItemDuration`
(number, object with a `seconds` key, or anything else). -/
inductive DurationVal
  | num (n : Int)
  | objSeconds (s : Option Int)
  | other
deriving DecidableEq, Repr

/-- Shape of the `view_count`/`viewCount` fields as `getItemViewCount`'s
`??` chain and `typeof` test distinguish them: a number, a present
non-number, or absent (null/undefined). -/
inductive NumVal
  | num (n : Int)
  | nonNum
  | absent
deriving DecidableEq, Repr

/-- Shape of the `published` field distinguished by `getItemPublished`. -/
inductive PublishedVal
  | str (s : String)
  | objText (t : Option String)
  | other
deriving DecidableEq, Repr

/-- Value of one of the duck-typed id fields (`id`, `video_id`, `videoId`)
as the `||` chain and the `typeof` guard of `getItemId` distinguish them:
a string (truthy exactly when non-empty), a truthy non-string value (a
number or object: it short-circuits `||` and then fails the
`typeof id === "string"` test), or a falsy non-string value
(undefined/null/0/false/NaN: `||` skips it). -/
inductive IdVal
  | str (s : String)
  | truthyNonStr
  | falsy
deriving DecidableEq, Repr

/-- JS `a || b` on id-field values: `a` when truthy, else `b`. -/
def jsOrId (a b : IdVal) : IdVal :=
  match a with
  | .str s => if s == "" then b else .str s
  | .truthyNonStr => .truthyNonStr
  | .falsy => b

/-- Raw engine record as variant A's item helpers read it
(src/unnamed/part_005): every field access the helpers perform, with JS
`unknown` narrowed to the shapes the helpers test for.  `thumbnails` is the
list of thumbnail records (each contributing its optional `url` string);
a non-array `thumbnails` value behaves like `[]`. -/
structure RawItemA where
  id : IdVal := .falsy
  video_id : IdVal := .falsy
  videoId : IdVal := .falsy
  title : TitleVal := .other
  thumbnails : List (Option String) := []
  duration : DurationVal := .other
  author : AuthorVal := .other
  view_count : NumVal := .absent
  viewCount : NumVal := .absent
  published : PublishedVal := .other
  url : Option String := none
deriving DecidableEq, Repr

/-- Embedding of `getItemId` (part_005 lines 215-218): `item.id ||
item.video_id || item.videoId`, then `""` unless the chain's value is a
string. -/
def getItemId (item : RawItemA) : String :=
  match jsOrId item.id (jsOrId item.video_id item.videoId) with
  | .str s => s
  | .truthyNonStr => ""
  | .falsy => ""

/-- Embedding of `getItemTitle` (part_005). -/
def getItemTitle (item : RawItemA) : String :=
  match item.title with
  | .str s => s
  | .objText (some s) => s
  | .objText none => "Unknown"
  | .other => "Unknown"

/-- Embedding of `getItemThumbnail` (part_005). -/
def getItemThumbnail (item : RawItemA) : String :=
  match item.thumbnails with
  | [] => ""
  | u :: _ => u.getD ""

/-- Embedding of `getItemDuration` (part_005). -/
def getItemDuration (item : RawItemA) : Int :=
  match item.duration with
  | .num n => n
  | .objSeconds (some s) => s
  | .objSeconds none => 0
  | .other => 0

/-- Embedding of `getItemAuthor` (part_005). -/
def getItemAuthor (item : RawItemA) : String :=
  match item.author with
  | .str s => s
  | .objName (some n) => n
  | .objName none => "Unknown"
  | .other => "Unknown"

/-- Embedding of `getItemViewCount` (part_005): `item.view_count ??
item.viewCount`, kept only when it is a number. -/
def getItemViewCount (item : RawItemA) : Option Int :=
  match item.view_count with
  | .num n => some n
  | .nonNum => none
  | .absent =>
    match item.viewCount with
    | .num n => some n
    | _ => none

/-- Embedding of `getItemPublished` (part_005). -/
def getItemPublished (item : RawItemA) : Option String :=
  match item.published with
  | .str s => some s
  | .objText t => t
  | .other => none

/-- Embedding of `getItemUrl` (part_005). -/
def getItemUrl (item : RawItemA) (fallbackId : String) : String :=
  match item.url with
  | some u => u
  | none =>
    if fallbackId != "" then "https://youtube.com/watch?v=" ++ fallbackId else ""

/-- The per-item mapping inside variant A's `searchVideos`
(src/unnamed/part_005 lines 480-492). -/
def mkVideoInfoA (item : RawItemA) : VideoInfo :=
  let id := getItemId item
  { videoId := id
    title := getItemTitle item
    thumbnailUrl := getItemThumbnail item
    duration := some (getItemDuration item)
    channel := getItemAuthor item
    viewCount := (getItemViewCount item).map some
    uploadDate := none
    url := getItemUrl item id
    isPlaylist := false }

/-- Embedding of variant A's `YTDLPWrapper.searchVideos`
(src/unnamed/part_005 lines 474-510).  The engine call is abstracted by its
outcome: `none` for a thrown error (the catch branch), `some items` for the
`result.videos || []` list.  `slice(0, maxResults)` is `take`. -/
def searchVideosA (query : String) (maxResults : Nat)
    (engineResult : Option (List RawItemA)) : SearchResult :=
  match engineResult with
  | none => { videos := [], query := query, page := 1, hasMore := false }
  | some items =>
    let videos := (items.take maxResults).map mkVideoInfoA
    { videos := videos
      query := query
      page := 1
      hasMore := decide (videos.length ≥ maxResults) }

/-- Shape of variant B's duck-typed `title` field: a plain string, or an
object whose `text` and `runs[0].text` are read with truthiness tests, or
anything else. -/
inductive TitleValB
  | str (s : String)
  | obj (text : Option String) (runText : Option String)
  | other
deriving DecidableEq, Repr

/-- Truthy value of an optional string (`video.title?.text` style access):
the string when present and non-empty. -/
def truthyVal (o : Option String) : Option String :=
  match o with
  | some s => if s == "" then none else some s
  | none => none

/-- Raw engine record of variant B's `searchVideos` mapping
(src/unnamed/part_006 lines 319-367): the fields it reads, pre-flattened
through the optional chains (`length_text` stands for
`video.length_text?.text`, and so on). -/
structure RawItemB where
  video_id : Option String := none
  id : Option String := none
  thumbnails : List (Option String) := []
  title : TitleValB := .other
  length_text : Option String := none
  short_view_count : Option String := none
  view_count_text : Option String := none
  author_name : Option String := none
  published_text : Option String := none
deriving DecidableEq, Repr

/-- Variant B's title extraction. -/
def getTitleB (t : TitleValB) : String :=
  match t with
  | .str s => s
  | .obj text runText =>
    match truthyVal text with
    | some s => s
    | none =>
      match truthyVal runText with
      | some s => s
      | none => "Unknown"
  | .other => "Unknown"

/-- JS `parseInt` (radix 10): trim, optional sign, longest digit prefix,
NaN (`none`) when no digit. -/
def parseIntJS (s : String) : Option Int :=
  let cs := (trimJs s).toList
  let core : List Char → Option Nat := fun l =>
    let ds := l.takeWhile Char.isDigit
    if ds.isEmpty then none else some (digitsVal ds)
  match cs with
  | '-' :: rest => (core rest).map (fun v => -(v : Int))
  | '+' :: rest => (core rest).map (fun v => (v : Int))
  | _ => (core cs).map (fun v => (v : Int))

/-- Split a character list at a separator character (JS `String.split`). -/
def splitChar (sep : Char) : List Char → List String
  | [] => [""]
  | c :: cs =>
    let rest := splitChar sep cs
    if c == sep then "" :: rest
    else
      match rest with
      | [] => [String.mk [c]]
      | r :: rs => String.mk (c :: r.toList) :: rs

/-- Variant B's duration computation from `length_text` ("3:49" → 229):
two parts weighted 60/1, three parts weighted 3600/60/1, anything else 0;
`none` is the NaN produced when `parseInt` fails on a part. -/
def durationB (lengthText : Option String) : Option Int :=
  match truthyVal lengthText with
  | none => some 0
  | some s =>
    match splitChar ':' s.toList with
    | [a, b] =>
      match parseIntJS a, parseIntJS b with
      | some x, some y => some (x * 60 + y)
      | _, _ => none
    | [a, b, c] =>
      match parseIntJS a, parseIntJS b, parseIntJS c with
      | some x, some y, some z => some (x * 3600 + y * 60 + z)
      | _, _, _ => none
    | _ => some 0

/-- The per-item mapping inside variant B's `searchVideos`
(src/unnamed/part_006 lines 319-367). -/
def mkVideoInfoB (video : RawItemB) : VideoInfo :=
  let videoId := (jsOr video.video_id video.id).getD ""
  let thumbnailUrl :=
    match video.thumbnails with
    | [] => ""
    | u :: _ => u.getD ""
  let viewCountText := (jsOr video.short_view_count video.view_count_text).getD ""
  { videoId := videoId
    title := getTitleB video.title
    thumbnailUrl := thumbnailUrl
    duration := durationB video.length_text
    channel := (truthyVal video.author_name).getD "Unknown"
    viewCount := parseViewCount viewCountText
    uploadDate := truthyVal video.published_text
    url := "https://youtube.com/watch?v=" ++ videoId
    isPlaylist := false }

/-- Embedding of variant B's `YTDLPWrapper.searchVideos`
(src/unnamed/part_006 lines 295-384).  The engine call is abstracted by its
outcome: `none` for a thrown error, `some (items, hasCont)` for a result
with its `has_continuation` flag; an empty or missing `videos` list takes
the early-return branch. -/
def searchVideosB (query : String) (maxResults : Nat)
    (engineResult : Option (List RawItemB × Bool)) : SearchResult :=
  match engineResult with
  | none => { videos := [], query := query, page := 1, hasMore := false }
  | some (items, hasCont) =>
    if items.isEmpty then
      { videos := [], query := query, page := 1, hasMore := false }
    else
      let videos := (items.take maxResults).map mkVideoInfoB
      { videos := videos
        query := query
        page := 1
        hasMore := hasCont }

/-- Engine record whose id fields are all absent: `getItemId` maps it to the
empty string. -/
def emptyItemA : RawItemA := {}

/-- Engine record whose `id` is a truthy non-string (say a number) while
`video_id` is a truthy string: the `||` chain stops at `id`, the `typeof`
guard then yields `""`. -/
def numericIdItemA : RawItemA := { id := .truthyNonStr, video_id := .str "abc123" }

/-- Decides whether variant A's id extraction yields a non-empty string for
one engine item: the first truthy value of the `id`/`video_id`/`videoId`
chain is a (necessarily non-empty) string. -/
def hasUsableIdA (item : RawItemA) : Bool :=
  match jsOrId item.id (jsOrId item.video_id item.videoId) with
  | .str s => s != ""
  | .truthyNonStr => false
  | .falsy => false

/-- Decides whether variant B's id extraction (`video.video_id || video.id
|| ""`) yields a non-empty string for one engine item. -/
def hasUsableIdB (video : RawItemB) : Bool :=
  truthyStr (jsOr video.video_id video.id)

/-- Embedding of the `StreamFormat` record type (src/unnamed/part_005 lines
178-186): a stream descriptor's fields as `pickStreamUrl` reads them. -/
structure StreamFormat where
  url : Option String := none
  mime_type : Option String := none
  bitrate : Option Int := none
  has_audio : Option Bool := none
  has_video : Option Bool := none
  quality_label : Option String := none
deriving DecidableEq, Repr

/-- Embedding of the `StreamingData` record type (part_005 lines 187-190). -/
structure StreamingData where
  formats : Option (List StreamFormat) := none
  adaptive_formats : Option (List StreamFormat) := none
deriving DecidableEq, Repr

/-- Download format selector. -/
inductive FormatType
  | mp4
  | mp3
deriving DecidableEq, Repr

/-- Substring test on strings (JS `String.prototype.includes`). -/
def strIncludes (s sub : String) : Bool :=
  hasSubList sub.toList s.toList

/-- The test `format.mime_type?.includes(x)` with optional chaining:
false when the mime type is absent. -/
def mimeIncludes (f : StreamFormat) (sub : String) : Bool :=
  match f.mime_type with
  | some m => strIncludes m sub
  | none => false

/-- The combined, url-filtered descriptor list built at the top of
`pickStreamUrl`: `[...(formats || []), ...(adaptive_formats || [])]`
filtered by `!!format.url`. -/
def formatsOf (streaming : StreamingData) : List StreamFormat :=
  ((streaming.formats.getD []) ++ (streaming.adaptive_formats.getD [])).filter
    (fun f => truthyStr f.url)

/-- The sort key access `(f.bitrate || 0)`. -/
def bitrateOr0 (f : StreamFormat) : Int :=
  f.bitrate.getD 0

/-- Comparator of the descending bitrate sort
`(a, b) => (b.bitrate || 0) - (a.bitrate || 0)`: `a` sorts no later than
`b` when the comparator is ≤ 0. -/
def bitrateGe (a b : StreamFormat) : Prop :=
  bitrateOr0 b ≤ bitrateOr0 a

instance : DecidableRel bitrateGe := fun a b =>
  inferInstanceAs (Decidable (bitrateOr0 b ≤ bitrateOr0 a))

instance : IsTotal StreamFormat bitrateGe :=
  ⟨fun a b => le_total (bitrateOr0 b) (bitrateOr0 a)⟩

instance : IsTrans StreamFormat bitrateGe :=
  ⟨fun _ _ _ h1 h2 => le_trans h2 h1⟩

/-- The audio-descriptor list of the mp3 branch. -/
def audioFormatsOf (streaming : StreamingData) : List StreamFormat :=
  (formatsOf streaming).filter (fun f => mimeIncludes f "audio")

/-- Embedding of variant A's `YTDLPWrapper.pickStreamUrl`
(src/unnamed/part_005 lines 384-405).  The JS stable `Array.sort` on the
bitrate comparator is embedded as a stable insertion sort ordered by the
same comparator; `chosen.url ? {...} : null` keeps the result only for a
truthy url.  Returns the chosen stream url and file extension. -/
def pickStreamUrl (streaming : StreamingData) (formatType : FormatType) :
    Option (String × String) :=
  match formatsOf streaming with
  | [] => none
  | f0 :: rest =>
    let formats := f0 :: rest
    match formatType with
    | .mp3 =>
      let audioFormats := formats.filter (fun f => mimeIncludes f "audio")
      let preferred := audioFormats.insertionSort bitrateGe
      let chosen := preferred.headD f0
      let extension := if mimeIncludes chosen "audio/mp4" then "m4a" else "webm"
      match chosen.url with
      | some u => if u == "" then none else some (u, extension)
      | none => none
    | .mp4 =>
      let mp4Formats := formats.filter (fun f => mimeIncludes f "video/mp4")
      let withAudio := mp4Formats.find? (fun f => f.has_audio.getD false)
      let chosen := ((withAudio.or mp4Formats.head?).getD f0)
      match chosen.url with
      | some u => if u == "" then none else some (u, "mp4")
      | none => none

/-- Streaming data with one audio descriptor, for the C8 witness. -/
def sampleAudioStreaming : StreamingData :=
  { formats := some [{ url := some "https://host/audio"
                       mime_type := some "audio/mp4"
                       bitrate := some 128000 }] }

/-- Task status enum of the `DownloadTask` type
(src/Android/React-Native/src/controllers/downloadController.ts). -/
inductive DStatus
  | queued
  | downloading
  | paused
  | completed
  | canceled
  | error
deriving DecidableEq, Repr, Fintype

/-- Embedding of the `DownloadTask` record.  The source's optional
`pauseFlag?`/`cancelFlag?` booleans are always set at task creation, so
they are plain `Bool` here; `progress` is a JS number, embedded as `Int`. -/
structure DownloadTask where
  downloadId : String
  video : VideoInfo
  formatType : FormatType
  status : DStatus
  progress : Int
  error : Option String := none
  pauseFlag : Bool := false
  cancelFlag : Bool := false
deriving DecidableEq, Repr

/-- Task-level core of `pauseDownload`: the mutation performed when the
task was found; `false` leaves the task untouched. -/
def pauseTask (t : DownloadTask) : DownloadTask × Bool :=
  if t.status = .downloading ∨ t.status = .queued then
    ({ t with pauseFlag := true, status := .paused }, true)
  else (t, false)

/-- Task-level core of `resumeDownload`. -/
def resumeTask (t : DownloadTask) : DownloadTask × Bool :=
  if t.status = .paused then
    ({ t with pauseFlag := false, status := .downloading }, true)
  else (t, false)

/-- The mutation `cancelDownload` applies to a found, non-terminal task:
set `cancelFlag`, clear `pauseFlag`, force status `canceled` and error
"Canceled". -/
def canceledOf (t : DownloadTask) : DownloadTask :=
  { t with cancelFlag := true
           pauseFlag := false
           status := .canceled
           error := some "Canceled" }

/-- Task-level core of `cancelDownload`. -/
def cancelTask (t : DownloadTask) : DownloadTask × Bool :=
  if t.status = .completed ∨ t.status = .canceled ∨ t.status = .error then
    (t, false)
  else
    (canceledOf t, true)

/-- State of a `DownloadController`: the `allDownloads` map (an association
list keyed by download id) and the `downloadHistory` list. -/
structure ControllerState where
  allDownloads : List (String × DownloadTask) := []
  downloadHistory : List DownloadTask := []
deriving DecidableEq, Repr

/-- Lookup `this.allDownloads.get(downloadId)`. -/
def lookupTask : List (String × DownloadTask) → String → Option DownloadTask
  | [], _ => none
  | (k, v) :: rest, id => if k = id then some v else lookupTask rest id

/-- Update `this.allDownloads.set(downloadId, task)` (in the source the map entry
is the same mutable object as the local `task`; here the updated value is
written back). -/
def setTask : List (String × DownloadTask) → String → DownloadTask →
    List (String × DownloadTask)
  | [], id, t => [(id, t)]
  | (k, v) :: rest, id, t =>
    if k = id then (k, t) :: rest else (k, v) :: setTask rest id t

/-- Embedding of `DownloadController.pauseDownload` (lines 80-88). -/
def pauseDownloadC (s : ControllerState) (id : String) : ControllerState × Bool :=
  match lookupTask s.allDownloads id with
  | none => (s, false)
  | some t =>
    let (t', ok) := pauseTask t
    if ok then ({ s with allDownloads := setTask s.allDownloads id t' }, true)
    else (s, false)

/-- Embedding of `DownloadController.resumeDownload` (lines 90-98). -/
def resumeDownloadC (s : ControllerState) (id : String) : ControllerState × Bool :=
  match lookupTask s.allDownloads id with
  | none => (s, false)
  | some t =>
    let (t', ok) := resumeTask t
    if ok then ({ s with allDownloads := setTask s.allDownloads id t' }, true)
    else (s, false)

/-- Embedding of `DownloadController.cancelDownload` (lines 100-110). -/
def cancelDownloadC (s : ControllerState) (id : String) : ControllerState × Bool :=
  match lookupTask s.allDownloads id with
  | none => (s, false)
  | some t =>
    let (t', ok) := cancelTask t
    if ok then ({ s with allDownloads := setTask s.allDownloads id t' }, true)
    else (s, false)

/-- One observable event during the awaited wrapper call inside
`downloadVideo`: a wrapper progress callback, the wrapper complete
callback, or a user-initiated pause/resume/cancel on this task (which in
the source goes through the controller methods and reaches the same
mutable task object). -/
inductive WrapperEvent
  | progress (p : Int)
  | complete (filename : String)
  | userPause
  | userResume
  | userCancel
deriving DecidableEq, Repr

/-- A caller-callback invocation recorded during a `downloadVideo` run. -/
inductive CallbackCall
  | progressCb (p : Int)
  | completeCb (filename : String)
  | errorCb (msg : String)
deriving DecidableEq, Repr

/-- Effect of one mid-call event on the task (downloadController.ts lines
52-63 for the two wrapper callbacks, 80-110 for the user operations),
together with the caller callbacks it fires. -/
def stepEvent (t : DownloadTask) : WrapperEvent → DownloadTask × List CallbackCall
  | .progress p => ({ t with progress := p }, [.progressCb p])
  | .complete f =>
    if t.cancelFlag = false then
      ({ t with progress := 100, status := .completed }, [.completeCb f])
    else (t, [])
  | .userPause => ((pauseTask t).1, [])
  | .userResume => ((resumeTask t).1, [])
  | .userCancel => ((cancelTask t).1, [])

/-- Fold of `stepEvent` over the mid-call event sequence. -/
def runEvents (t : DownloadTask) : List WrapperEvent → DownloadTask × List CallbackCall
  | [] => (t, [])
  | e :: es =>
    let (t', cs) := stepEvent t e
    let (t'', cs') := runEvents t' es
    (t'', cs ++ cs')

/-- The failure handling after `await this.ytdlp.downloadVideo` resolves
(downloadController.ts lines 65-75). -/
def resolveTask (t : DownloadTask) (success : Bool) : DownloadTask × List CallbackCall :=
  if success = false then
    if t.cancelFlag = true then
      ({ t with status := .canceled, error := some "Canceled" }, [])
    else
      ({ t with status := .error, error := some "Download failed" },
        [.errorCb "Download failed"])
  else (t, [])

/-- The freshly created task of `downloadVideo` (lines 35-43).  The random
`createId()` value is a parameter. -/
def newTask (downloadId : String) (video : VideoInfo) (formatType : FormatType) :
    DownloadTask :=
  { downloadId := downloadId
    video := video
    formatType := formatType
    status := .queued
    progress := 0
    error := none
    pauseFlag := false
    cancelFlag := false }

/-- The whole task-level run of `downloadVideo` (lines 34-77): create the
task as `queued`, flip it to `downloading`, run the wrapper call (its
observable events followed by its boolean resolution), and apply the
failure handling.  Returns the final task and the caller callbacks in
order. -/
def downloadVideoRun (downloadId : String) (video : VideoInfo)
    (formatType : FormatType) (events : List WrapperEvent) (success : Bool) :
    DownloadTask × List CallbackCall :=
  let t1 := { newTask downloadId video formatType with status := .downloading }
  let (t2, cs) := runEvents t1 events
  let (t3, cs') := resolveTask t2 success
  (t3, cs ++ cs')

/-- Embedding of `DownloadController.downloadVideo` at the controller-state
level: the map holds the task object from before the wrapper call (the
source stores a reference, so the final map entry is the final task value),
and the same task is pushed onto `downloadHistory` once the call resolves
(line 76), whatever the outcome. -/
def downloadVideoC (s : ControllerState) (downloadId : String) (video : VideoInfo)
    (formatType : FormatType) (events : List WrapperEvent) (success : Bool) :
    ControllerState × List CallbackCall :=
  let (t, cs) := downloadVideoRun downloadId video formatType events success
  ({ allDownloads := setTask s.allDownloads downloadId t
     downloadHistory := s.downloadHistory ++ [t] }, cs)

/-- Statuses the task passes through while the mid-call events fire
(head = status before the first event, last = status after the last). -/
def statusTrace (t : DownloadTask) : List WrapperEvent → List DStatus
  | [] => [t.status]
  | e :: es => t.status :: statusTrace (stepEvent t e).1 es

/-- Full status trace of one `downloadVideo` run: `queued`, then the flip
to `downloading`, the mid-call statuses, and the status after failure
handling. -/
def downloadRunTrace (downloadId : String) (video : VideoInfo)
    (formatType : FormatType) (events : List WrapperEvent) (success : Bool) :
    List DStatus :=
  let t0 := newTask downloadId video formatType
  let t1 := { t0 with status := .downloading }
  let (t2, _) := runEvents t1 events
  t0.status :: (statusTrace t1 events ++ [(resolveTask t2 success).1.status])

/-- The transition list of the spec's download state machine (§3): pause
from `downloading`/`queued`, resume from `paused`, cancel from any
non-terminal state, completion and error only from `downloading`. -/
def specTransB : DStatus → DStatus → Bool
  | .queued, .downloading => true
  | .downloading, .paused => true
  | .queued, .paused => true
  | .paused, .downloading => true
  | .downloading, .canceled => true
  | .queued, .canceled => true
  | .paused, .canceled => true
  | .downloading, .completed => true
  | .downloading, .error => true
  | _, _ => false

/-- The transitions the code actually performs: the spec's list plus
completion and error from `paused` (pause is cooperative, so the wrapper
can complete or fail while the task shows `paused`). -/
def amendedTransB (a b : DStatus) : Bool :=
  specTransB a b ||
    (a == .paused && b == .completed) || (a == .paused && b == .error)

/-- Stutter-or-transition step relation used over status traces. -/
def stepOk (transB : DStatus → DStatus → Bool) (a b : DStatus) : Prop :=
  a = b ∨ transB a b = true

/-- The error-callback invocations among a callback log. -/
def errorTexts : List CallbackCall → List String
  | [] => []
  | .errorCb m :: rest => m :: errorTexts rest
  | .progressCb _ :: rest => errorTexts rest
  | .completeCb _ :: rest => errorTexts rest

/-- A concrete `VideoInfo`, used by the concrete controller states below. -/
def sampleVideo : VideoInfo :=
  { videoId := "abc"
    title := "Sample"
    thumbnailUrl := ""
    duration := some 60
    channel := "Chan"
    viewCount := none
    uploadDate := none
    url := "https://youtube.com/watch?v=abc"
    isPlaylist := false }

/-- A task sitting in status `paused`. -/
def pausedTask1 : DownloadTask :=
  { downloadId := "d1"
    video := sampleVideo
    formatType := .mp4
    status := .paused
    progress := 10
    pauseFlag := true }

/-- Controller state holding the paused task under id "d1". -/
def pausedState : ControllerState :=
  { allDownloads := [("d1", pausedTask1)] }

/-- A task sitting in status `downloading`. -/
def downloadingTask1 : DownloadTask :=
  { downloadId := "d1"
    video := sampleVideo
    formatType := .mp4
    status := .downloading
    progress := 10 }

/-- Controller state holding the downloading task under id "d1". -/
def downloadingState : ControllerState :=
  { allDownloads := [("d1", downloadingTask1)] }

/-- The state `cancelDownloadC downloadingState "d1"` produces. -/
def canceledState : ControllerState :=
  { allDownloads := [("d1", canceledOf downloadingTask1)] }

/-- Invariant holding for the task throughout a `downloadVideo` run: the
status is one the run can produce, and the status is `canceled` exactly
when `cancelFlag` is set. -/
def RunInv (t : DownloadTask) : Prop :=
  (t.status = .downloading ∨ t.status = .paused ∨ t.status = .canceled
    ∨ t.status = .completed)
  ∧ (t.status = .canceled ↔ t.cancelFlag = true)

instance (transB : DStatus → DStatus → Bool) : DecidableRel (stepOk transB) :=
  fun a b => inferInstanceAs (Decidable (a = b ∨ transB a b = true))

/-- The constructor kind of a `WrapperEvent` (its payload does not affect
status or cancelFlag). -/
inductive EvKind
  | progressK
  | completeK
  | pauseK
  | resumeK
  | cancelK
deriving DecidableEq, Repr, Fintype

/-- Kind of an event. -/
def evKind : WrapperEvent → EvKind
  | .progress _ => .progressK
  | .complete _ => .completeK
  | .userPause => .pauseK
  | .userResume => .resumeK
  | .userCancel => .cancelK

/-- Action of `stepEvent` on the (status, cancelFlag) projection of the
task, by event kind. -/
def stepSFK (p : DStatus × Bool) (k : EvKind) : DStatus × Bool :=
  match k with
  | .progressK => p
  | .completeK => if p.2 = false then (.completed, p.2) else p
  | .pauseK => if p.1 = .downloading ∨ p.1 = .queued then (.paused, p.2) else p
  | .resumeK => if p.1 = .paused then (.downloading, p.2) else p
  | .cancelK =>
    if p.1 = .completed ∨ p.1 = .canceled ∨ p.1 = .error then p
    else (.canceled, true)

/-- Restriction of `RunInv` to the (status, cancelFlag) projection. -/
def runInvB (p : DStatus × Bool) : Prop :=
  (p.1 = .downloading ∨ p.1 = .paused ∨ p.1 = .canceled ∨ p.1 = .completed)
  ∧ (p.1 = .canceled ↔ p.2 = true)

instance : DecidablePred runInvB := fun p =>
  inferInstanceAs (Decidable
    ((p.1 = .downloading ∨ p.1 = .paused ∨ p.1 = .canceled ∨ p.1 = .completed)
      ∧ (p.1 = .canceled ↔ p.2 = true)))

theorem isPrefixList_iff (p l : List Char) :
    isPrefixList p l = true ↔ ∃ r, l = p ++ r := by
  induction p generalizing l with
  | nil => simp [isPrefixList]
  | cons a as ih =>
    cases l with
    | nil => simp [isPrefixList]
    | cons b bs =>
      simp only [isPrefixList, Bool.and_eq_true, beq_iff_eq, ih]
      constructor
      · rintro ⟨rfl, r, rfl⟩
        exact ⟨r, rfl⟩
      · rintro ⟨r, h⟩
        cases h
        exact ⟨rfl, r, rfl⟩

theorem hasSubList_iff (sub l : List Char) :
    hasSubList sub l = true ↔ ∃ u v, l = u ++ sub ++ v := by
  induction l with
  | nil =>
    simp only [hasSubList, List.isEmpty_iff]
    constructor
    · rintro rfl
      exact ⟨[], [], rfl⟩
    · rintro ⟨u, v, h⟩
      cases u <;> cases sub <;> simp_all
  | cons c cs ih =>
    simp only [hasSubList, Bool.or_eq_true, isPrefixList_iff, ih]
    constructor
    · rintro (⟨r, h⟩ | ⟨u, v, h⟩)
      · exact ⟨[], r, by simpa using h⟩
      · exact ⟨c :: u, v, by simp [h]⟩
    · rintro ⟨u, v, h⟩
      cases u with
      | nil =>
        left
        exact ⟨v, by simpa using h⟩
      | cons x xs =>
        right
        simp only [List.cons_append, List.cons.injEq] at h
        exact ⟨xs, v, h.2⟩

theorem padStart2_toString_len : ∀ m : Nat, m < 100 → (padStart2 (toString m)).length = 2 := by
  decide

/-- C5: formatDuration returns "Unknown" on negative input; otherwise it is
`H:MM:SS` when the hour component is positive and `M:SS` otherwise, with
two-digit zero-padded minutes and seconds; concretely `formatDuration 0 =
"0:00"`, `formatDuration 65 = "1:05"`, `formatDuration 3661 = "1:01:01"`. -/
theorem c5_formatDuration :
    (∀ d : Int, d < 0 → formatDuration d = "Unknown")
    ∧ (∀ d : Int, 0 ≤ d → 0 < d.toNat / 3600 →
        formatDuration d =
          toString (d.toNat / 3600) ++ ":" ++
            padStart2 (toString (d.toNat % 3600 / 60)) ++ ":" ++
            padStart2 (toString (d.toNat % 60))
        ∧ (padStart2 (toString (d.toNat % 3600 / 60))).length = 2
        ∧ (padStart2 (toString (d.toNat % 60))).length = 2)
    ∧ (∀ d : Int, 0 ≤ d → d.toNat / 3600 = 0 →
        formatDuration d =
          toString (d.toNat % 3600 / 60) ++ ":" ++ padStart2 (toString (d.toNat % 60))
        ∧ (padStart2 (toString (d.toNat % 60))).length = 2)
    ∧ formatDuration 0 = "0:00"
    ∧ formatDuration 65 = "1:05"
    ∧ formatDuration 3661 = "1:01:01" := by
  refine ⟨?_, ?_, ?_, by decide, by decide, by decide⟩
  · intro d hd
    simp [formatDuration, hd]
  · intro d hd hh
    refine ⟨?_, ?_, ?_⟩
    · simp [formatDuration, hd, hh, not_lt.mpr hd, Int.not_lt.mpr hd]
    · exact padStart2_toString_len _ (by omega)
    · exact padStart2_toString_len _ (by omega)
  · intro d hd hh
    refine ⟨?_, ?_⟩
    · simp [formatDuration, hd, hh, not_lt.mpr hd, Int.not_lt.mpr hd]
    · exact padStart2_toString_len _ (by omega)

theorem jsRoundPos_eq_round (n d : Nat) (hd : 0 < d) :
    (jsRoundPos n d : Int) = round ((n : ℚ) / d) := by
  rw [round_eq, jsRoundPos]
  have hd' : ((d : ℚ)) ≠ 0 := by positivity
  have h1 : ((n : ℚ) / d + 1 / 2) = ((2 * n + d : Nat) : ℚ) / ((2 * d : Nat) : ℚ) := by
    push_cast
    field_simp
    ring
  rw [h1, Rat.floor_natCast_div_natCast]
  exact Int.ofNat_div _ _

/-- C6: parseViewCount strips a trailing view/views suffix and whitespace;
a numeric remainder with optional K/M/B suffix yields the value scaled by
1000 / 10^6 / 10^9 rounded to the nearest integer, a non-matching or empty
input yields no value; concretely `"1.2M views" ↦ 1200000`,
`"950 views" ↦ 950`, `"" ↦ none`, `"2.5K" ↦ 2500`. -/
theorem c6_parseViewCount :
    parseViewCount "1.2M views" = some (some 1200000)
    ∧ parseViewCount "950 views" = some (some 950)
    ∧ parseViewCount "" = none
    ∧ parseViewCount "2.5K" = some (some 2500)
    ∧ (∀ s, s ≠ "" →
        matchViewPattern (trimJs (stripViewsSuffix (toLowerStr s))) = none →
        parseViewCount s = none)
    ∧ (∀ s numStr suffix n k, s ≠ "" →
        matchViewPattern (trimJs (stripViewsSuffix (toLowerStr s))) =
          some (numStr, suffix) →
        parseFloatDigits numStr = some (n, k) →
        parseViewCount s =
          some (some (round (ratOfFloat (n, k) * (viewScale suffix : ℚ))))) := by
  refine ⟨by decide, by decide, by decide, by decide, ?_, ?_⟩
  · intro s hs hm
    have hs' : (s == "") = false := beq_eq_false_iff_ne.mpr hs
    simp only [parseViewCount, hs', Bool.false_eq_true, if_false, hm]
  · intro s numStr suffix n k hs hm hp
    have hs' : (s == "") = false := beq_eq_false_iff_ne.mpr hs
    have hv : ratOfFloat (n, k) * (viewScale suffix : ℚ) =
        ((n * viewScale suffix : Nat) : ℚ) / ((10 ^ k : Nat) : ℚ) := by
      rw [ratOfFloat]
      push_cast
      ring
    simp only [parseViewCount, hs', Bool.false_eq_true, if_false, hm, hp]
    rw [hv, ← jsRoundPos_eq_round _ _ (pow_pos (by norm_num) k)]

/-- C7: isUrl holds exactly when the trimmed input begins, case-insensitively,
with "http://" or "https://"; isPlaylistUrl holds exactly when the input
contains "?list=" or "&list="; with the four concrete examples. -/
theorem c7_url_classification :
    isUrl "https://youtube.com/watch?v=abc" = true
    ∧ isUrl "cat videos" = false
    ∧ isPlaylistUrl "https://youtube.com/playlist?list=XYZ" = true
    ∧ isPlaylistUrl "https://youtube.com/watch?v=abc" = false
    ∧ (∀ s, isUrl s = true ↔
        ∃ r, toLowerList (trimJs s).toList = "http://".toList ++ r
          ∨ toLowerList (trimJs s).toList = "https://".toList ++ r)
    ∧ (∀ s, isPlaylistUrl s = true ↔
        (∃ u v, s.toList = u ++ "?list=".toList ++ v)
        ∨ (∃ u v, s.toList = u ++ "&list=".toList ++ v)) := by
  refine ⟨by decide, by decide, by decide, by decide, ?_, ?_⟩
  · intro s
    simp only [isUrl, Bool.or_eq_true, isPrefixList_iff]
    constructor
    · rintro (⟨r, h⟩ | ⟨r, h⟩)
      · exact ⟨r, Or.inl h⟩
      · exact ⟨r, Or.inr h⟩
    · rintro ⟨r, h | h⟩
      · exact Or.inl ⟨r, h⟩
      · exact Or.inr ⟨r, h⟩
  · intro s
    simp only [isPlaylistUrl, Bool.or_eq_true, hasSubList_iff]

/-- C4 counterexample: a successful search (query preserved, within the
requested size) whose result contains a `VideoInfo` with an empty
`videoId`, because the engine item carried no usable id field; moreover a
truthy non-string `id` blocks the `||` fallback, so the videoId is empty
even when `video_id` is a truthy string. -/
theorem c4_counterexample :
    (searchVideosA "python tutorial" 20 (some [emptyItemA])).videos.length ≤ 20
    ∧ (searchVideosA "python tutorial" 20 (some [emptyItemA])).query = "python tutorial"
    ∧ ¬ (∀ v ∈ (searchVideosA "python tutorial" 20 (some [emptyItemA])).videos,
          v.videoId ≠ "")
    ∧ (mkVideoInfoA numericIdItemA).videoId = "" := by
  decide

/-- C4 (amended): both searchVideos variants deliver at most `maxResults`
videos and preserve the query; each delivered `VideoInfo` is the mapping of
its own engine item, and its videoId is non-empty exactly when that item's
id extraction finds a truthy string (variant A: the first truthy value of
the `id`/`video_id`/`videoId` chain is a string, which a truthy non-string
`id` defeats; variant B: `video_id` or `id` is a truthy string). -/
theorem c4_search_contract :
    (∀ query maxResults engine,
      (searchVideosA query maxResults engine).videos.length ≤ maxResults
      ∧ (searchVideosA query maxResults engine).query = query)
    ∧ (∀ query maxResults engine,
      (searchVideosB query maxResults engine).videos.length ≤ maxResults
      ∧ (searchVideosB query maxResults engine).query = query)
    ∧ (∀ query maxResults items,
        (searchVideosA query maxResults (some items)).videos
          = (items.take maxResults).map mkVideoInfoA)
    ∧ (∀ item : RawItemA,
        (mkVideoInfoA item).videoId ≠ "" ↔ hasUsableIdA item = true)
    ∧ (∀ query maxResults items hasCont,
        (searchVideosB query maxResults (some (items, hasCont))).videos
          = (items.take maxResults).map mkVideoInfoB)
    ∧ (∀ video : RawItemB,
        (mkVideoInfoB video).videoId ≠ "" ↔ hasUsableIdB video = true) := by
  refine ⟨?_, ?_, ?_, ?_, ?_, ?_⟩
  · intro query maxResults engine
    match engine with
    | none => exact ⟨Nat.zero_le _, rfl⟩
    | some items =>
      refine ⟨?_, rfl⟩
      simp only [searchVideosA, List.length_map, List.length_take]
      exact min_le_left _ _
  · intro query maxResults engine
    match engine with
    | none => exact ⟨Nat.zero_le _, rfl⟩
    | some (items, hasCont) =>
      by_cases h : items.isEmpty
      · simp [searchVideosB, h]
      · refine ⟨?_, by simp [searchVideosB, h]⟩
        simp only [searchVideosB, h, Bool.false_eq_true, if_false,
          List.length_map, List.length_take]
        exact min_le_left _ _
  · intro query maxResults items
    rfl
  · intro item
    rw [show (mkVideoInfoA item).videoId = getItemId item from rfl]
    rw [getItemId, hasUsableIdA]
    cases jsOrId item.id (jsOrId item.video_id item.videoId) with
    | str s => simp
    | truthyNonStr => simp
    | falsy => simp
  · intro query maxResults items hasCont
    by_cases h : items.isEmpty
    · rw [List.isEmpty_iff.mp h]
      simp [searchVideosB]
    · simp [searchVideosB, h]
  · intro video
    rw [show (mkVideoInfoB video).videoId = (jsOr video.video_id video.id).getD ""
      from rfl]
    rw [hasUsableIdB]
    cases jsOr video.video_id video.id with
    | none => simp [truthyStr]
    | some s => simp [truthyStr]

/-- C8: on the mp3 branch, with at least one audio descriptor available,
the chosen descriptor is an audio descriptor with a truthy url and maximal
`(bitrate || 0)` among them, and the extension is `m4a` exactly when its
mime type contains `audio/mp4`, else `webm`. -/
theorem c8_pickStreamUrl_mp3 (streaming : StreamingData)
    (h : audioFormatsOf streaming ≠ []) :
    ∃ chosen u, chosen ∈ audioFormatsOf streaming
      ∧ chosen.url = some u ∧ u ≠ ""
      ∧ (∀ g ∈ audioFormatsOf streaming, bitrateOr0 g ≤ bitrateOr0 chosen)
      ∧ pickStreamUrl streaming FormatType.mp3 =
          some (u, if mimeIncludes chosen "audio/mp4" then "m4a" else "webm") := by
  have hforms : formatsOf streaming ≠ [] := by
    intro h0
    exact h (by simp [audioFormatsOf, h0])
  obtain ⟨f0, rest, heq⟩ : ∃ f0 rest, formatsOf streaming = f0 :: rest := by
    cases hf : formatsOf streaming with
    | nil => exact absurd hf hforms
    | cons a l => exact ⟨a, l, rfl⟩
  have hperm : List.Perm ((audioFormatsOf streaming).insertionSort bitrateGe)
      (audioFormatsOf streaming) := List.perm_insertionSort _ _
  have hsorted : ((audioFormatsOf streaming).insertionSort bitrateGe).Sorted
      bitrateGe := List.sorted_insertionSort _ _
  obtain ⟨c, cs, hc⟩ : ∃ c cs,
      (audioFormatsOf streaming).insertionSort bitrateGe = c :: cs := by
    cases hp : (audioFormatsOf streaming).insertionSort bitrateGe with
    | nil => exact absurd ((hp ▸ hperm).symm.eq_nil) h
    | cons a l => exact ⟨a, l, rfl⟩
  have hcmem : c ∈ audioFormatsOf streaming :=
    hperm.mem_iff.mp (by simp [hc])
  have hmax : ∀ g ∈ audioFormatsOf streaming, bitrateOr0 g ≤ bitrateOr0 c := by
    intro g hg
    have hg' : g ∈ c :: cs := hc ▸ hperm.mem_iff.mpr hg
    rcases List.mem_cons.mp hg' with rfl | hgs
    · exact le_refl _
    · exact (List.sorted_cons.mp (hc ▸ hsorted)).1 g hgs
  have hurl : truthyStr c.url = true := by
    have hmemforms : c ∈ formatsOf streaming := by
      have h1 : c ∈ (formatsOf streaming).filter (fun f => mimeIncludes f "audio") := by
        simpa [audioFormatsOf] using hcmem
      exact (List.mem_filter.mp h1).1
    rw [formatsOf] at hmemforms
    exact (List.mem_filter.mp hmemforms).2
  obtain ⟨u, hcu, hune⟩ : ∃ u, c.url = some u ∧ u ≠ "" := by
    cases hu : c.url with
    | none => rw [hu, truthyStr] at hurl; exact absurd hurl (by simp)
    | some s =>
      rw [hu, truthyStr] at hurl
      exact ⟨s, rfl, by simpa using hurl⟩
  have haudio : (f0 :: rest).filter (fun f => mimeIncludes f "audio") =
      audioFormatsOf streaming := by
    rw [audioFormatsOf, heq]
  refine ⟨c, u, hcmem, hcu, hune, hmax, ?_⟩
  simp only [pickStreamUrl, heq, haudio, hc, List.headD_cons, hcu]
  simp [hune]

/-- Witness instantiating c8_pickStreamUrl_mp3 on concrete streaming data. -/
theorem c8_pickStreamUrl_mp3_witness :
    ∃ chosen u, chosen ∈ audioFormatsOf sampleAudioStreaming
      ∧ chosen.url = some u ∧ u ≠ ""
      ∧ (∀ g ∈ audioFormatsOf sampleAudioStreaming, bitrateOr0 g ≤ bitrateOr0 chosen)
      ∧ pickStreamUrl sampleAudioStreaming FormatType.mp3 =
          some (u, if mimeIncludes chosen "audio/mp4" then "m4a" else "webm") :=
  c8_pickStreamUrl_mp3 sampleAudioStreaming (by decide)

theorem errorTexts_append (a b : List CallbackCall) :
    errorTexts (a ++ b) = errorTexts a ++ errorTexts b := by
  induction a with
  | nil => rfl
  | cons c rest ih => cases c <;> simp [errorTexts, ih]

theorem stepEvent_errorTexts (t : DownloadTask) (e : WrapperEvent) :
    errorTexts (stepEvent t e).2 = [] := by
  cases e with
  | progress p => rfl
  | complete f =>
    by_cases h : t.cancelFlag = false <;> simp [stepEvent, h, errorTexts]
  | userPause => rfl
  | userResume => rfl
  | userCancel => rfl

theorem runEvents_errorTexts (events : List WrapperEvent) (t : DownloadTask) :
    errorTexts (runEvents t events).2 = [] := by
  induction events generalizing t with
  | nil => rfl
  | cons e es ih =>
    simp only [runEvents]
    cases hs : stepEvent t e with
    | mk t' cs =>
      cases hr : runEvents t' es with
      | mk t'' cs' =>
        have h1 := stepEvent_errorTexts t e
        have h2 := ih t'
        rw [hs] at h1
        rw [hr] at h2
        simp [errorTexts_append, h1, h2]

/-- C1: if the wrapper call resolves as a failure while `cancelFlag` is set,
the task ends `canceled` with error "Canceled" and the error callback never
fires; if `cancelFlag` is not set, it ends `error` with "Download failed"
and the error callback fires exactly once with that text. -/
theorem c1_wrapper_failure :
    ∀ downloadId video formatType events,
      (((runEvents { newTask downloadId video formatType with status := .downloading }
            events).1.cancelFlag = true →
          (downloadVideoRun downloadId video formatType events false).1.status = .canceled
          ∧ (downloadVideoRun downloadId video formatType events false).1.error =
              some "Canceled"
          ∧ errorTexts (downloadVideoRun downloadId video formatType events false).2 = [])
        ∧ ((runEvents { newTask downloadId video formatType with status := .downloading }
            events).1.cancelFlag = false →
          (downloadVideoRun downloadId video formatType events false).1.status = .error
          ∧ (downloadVideoRun downloadId video formatType events false).1.error =
              some "Download failed"
          ∧ errorTexts (downloadVideoRun downloadId video formatType events false).2 =
              ["Download failed"])) := by
  intro downloadId video formatType events
  cases hrun : runEvents { newTask downloadId video formatType with status := .downloading }
      events with
  | mk t2 cs =>
    have hcs : errorTexts cs = [] := by
      have := runEvents_errorTexts events
        { newTask downloadId video formatType with status := .downloading }
      rw [hrun] at this
      exact this
    constructor
    · intro hflag
      have hflag' : t2.cancelFlag = true := hflag
      simp only [downloadVideoRun, hrun, resolveTask, hflag']
      simp [errorTexts_append, hcs, errorTexts]
    · intro hflag
      have hflag' : t2.cancelFlag = false := hflag
      simp only [downloadVideoRun, hrun, resolveTask, hflag']
      simp [errorTexts_append, hcs, errorTexts]

/-- C2 counterexample: from a task in status `paused`, `cancelDownload`
returns true — not only `resumeDownload` succeeds there, contrary to the
claim. -/
theorem c2_counterexample :
    (lookupTask pausedState.allDownloads "d1").map DownloadTask.status =
      some DStatus.paused
    ∧ (cancelDownloadC pausedState "d1").2 = true := by
  decide

/-- C2 (amended): on terminal statuses all three operations return false
and leave the state untouched; from `paused`, `resumeDownload` and
`cancelDownload` succeed while `pauseDownload` refuses; from `downloading`,
`pauseDownload` and `cancelDownload` succeed while `resumeDownload`
refuses; `pauseDownload` (and `cancelDownload`) also succeed from
`queued`. -/
theorem c2_op_state_machine (s : ControllerState) (id : String) (t : DownloadTask)
    (h : lookupTask s.allDownloads id = some t) :
    ((t.status = .completed ∨ t.status = .canceled ∨ t.status = .error) →
        pauseDownloadC s id = (s, false)
        ∧ resumeDownloadC s id = (s, false)
        ∧ cancelDownloadC s id = (s, false))
    ∧ (t.status = .paused →
        (resumeDownloadC s id).2 = true
        ∧ (cancelDownloadC s id).2 = true
        ∧ pauseDownloadC s id = (s, false))
    ∧ (t.status = .downloading →
        (pauseDownloadC s id).2 = true
        ∧ (cancelDownloadC s id).2 = true
        ∧ resumeDownloadC s id = (s, false))
    ∧ (t.status = .queued →
        (pauseDownloadC s id).2 = true
        ∧ (cancelDownloadC s id).2 = true
        ∧ resumeDownloadC s id = (s, false)) := by
  refine ⟨?_, ?_, ?_, ?_⟩
  · rintro (h1 | h1 | h1) <;>
      simp [pauseDownloadC, resumeDownloadC, cancelDownloadC,
        pauseTask, resumeTask, cancelTask, h, h1]
  · intro h1
    simp [pauseDownloadC, resumeDownloadC, cancelDownloadC,
      pauseTask, resumeTask, cancelTask, h, h1]
  · intro h1
    simp [pauseDownloadC, resumeDownloadC, cancelDownloadC,
      pauseTask, resumeTask, cancelTask, h, h1]
  · intro h1
    simp [pauseDownloadC, resumeDownloadC, cancelDownloadC,
      pauseTask, resumeTask, cancelTask, h, h1]

/-- Witness instantiating c2_op_state_machine on a concrete paused task. -/
theorem c2_op_state_machine_witness :
    (resumeDownloadC pausedState "d1").2 = true
    ∧ (cancelDownloadC pausedState "d1").2 = true
    ∧ pauseDownloadC pausedState "d1" = (pausedState, false) :=
  (c2_op_state_machine pausedState "d1" pausedTask1 (by decide)).2.1 (by decide)

theorem lookupTask_setTask (m : List (String × DownloadTask)) (id : String)
    (t : DownloadTask) : lookupTask (setTask m id t) id = some t := by
  induction m with
  | nil => simp [setTask, lookupTask]
  | cons kv rest ih =>
    by_cases h : kv.1 = id <;> simp [setTask, lookupTask, h, ih]

/-- C9: every `downloadVideo` run appends its task to `downloadHistory`
exactly once when the wrapper call resolves, whatever the outcome; the
appended task is the final task value, also found in the live map. -/
theorem c9_history_append (s : ControllerState) (downloadId : String)
    (video : VideoInfo) (formatType : FormatType) (events : List WrapperEvent)
    (success : Bool) :
    ∃ t, (downloadVideoC s downloadId video formatType events success).1.downloadHistory
          = s.downloadHistory ++ [t]
      ∧ lookupTask
          (downloadVideoC s downloadId video formatType events success).1.allDownloads
          downloadId = some t
      ∧ t = (downloadVideoRun downloadId video formatType events success).1 := by
  cases hrun : downloadVideoRun downloadId video formatType events success with
  | mk t cs =>
    refine ⟨t, ?_, ?_, rfl⟩

    · simp [downloadVideoC, hrun]
    · simp [downloadVideoC, hrun, lookupTask_setTask]

theorem stepEvent_canceled (t : DownloadTask) (e : WrapperEvent)
    (hst : t.status = .canceled) (hcf : t.cancelFlag = true) :
    (stepEvent t e).1.status = .canceled ∧ (stepEvent t e).1.cancelFlag = true := by
  cases e <;>
    simp [stepEvent, pauseTask, resumeTask, cancelTask, hst, hcf]

theorem runEvents_canceled (events : List WrapperEvent) (t : DownloadTask)
    (hst : t.status = .canceled) (hcf : t.cancelFlag = true) :
    (runEvents t events).1.status = .canceled
    ∧ (runEvents t events).1.cancelFlag = true := by
  induction events generalizing t with
  | nil => exact ⟨hst, hcf⟩
  | cons e es ih =>
    have hs := stepEvent_canceled t e hst hcf
    simp only [runEvents]
    cases hse : stepEvent t e with
    | mk t' cs =>
      rw [hse] at hs
      cases hr : runEvents t' es with
      | mk t'' cs' =>
        have := ih t' hs.1 hs.2
        rw [hr] at this
        exact this

/-- C10: once `cancelDownload` has succeeded on a task, the task is
`canceled` with `cancelFlag` set; it stays so through any later wrapper
events, and a later wrapper completion is a complete no-op — the status
does not become `completed`, the progress is not set to 100, and the
complete callback does not fire. -/
theorem c10_cancel_blocks_complete (s : ControllerState) (id : String)
    (s' : ControllerState) (h : cancelDownloadC s id = (s', true)) :
    ∃ t', lookupTask s'.allDownloads id = some t'
      ∧ t'.status = .canceled ∧ t'.cancelFlag = true
      ∧ (∀ events, (runEvents t' events).1.status = .canceled
          ∧ (runEvents t' events).1.cancelFlag = true)
      ∧ (∀ events f,
          stepEvent (runEvents t' events).1 (.complete f)
            = ((runEvents t' events).1, [])) := by
  cases hl : lookupTask s.allDownloads id with
  | none =>
    simp only [cancelDownloadC, hl] at h
    simp at h
  | some t =>
    simp only [cancelDownloadC, hl] at h
    by_cases hterm : t.status = .completed ∨ t.status = .canceled ∨ t.status = .error
    · simp only [cancelTask, if_pos hterm] at h
      simp at h
    · simp only [cancelTask, if_neg hterm] at h
      have hs' : s' = { s with allDownloads := setTask s.allDownloads id (canceledOf t) } := by
        have h1 := congrArg Prod.fst h
        simp at h1
        exact h1.symm
      refine ⟨canceledOf t, ?_, rfl, rfl, ?_, ?_⟩
      · rw [hs']
        exact lookupTask_setTask _ _ _
      · intro events
        exact runEvents_canceled events _ rfl rfl
      · intro events f
        have hc := (runEvents_canceled events (canceledOf t) rfl rfl).2
        simp [stepEvent, hc]

/-- Witness instantiating c10_cancel_blocks_complete on a concrete
downloading task canceled by the user. -/
theorem c10_cancel_blocks_complete_witness :
    ∃ t', lookupTask canceledState.allDownloads "d1" = some t'
      ∧ t'.status = .canceled ∧ t'.cancelFlag = true
      ∧ (∀ events, (runEvents t' events).1.status = .canceled
          ∧ (runEvents t' events).1.cancelFlag = true)
      ∧ (∀ events f,
          stepEvent (runEvents t' events).1 (.complete f)
            = ((runEvents t' events).1, [])) :=
  c10_cancel_blocks_complete downloadingState "d1" canceledState (by decide)

theorem statusTrace_head (t : DownloadTask) (es : List WrapperEvent) :
    (statusTrace t es).head? = some t.status := by
  cases es <;> rfl

theorem runEvents_cons_fst (t : DownloadTask) (e : WrapperEvent)
    (es : List WrapperEvent) :
    (runEvents t (e :: es)).1 = (runEvents (stepEvent t e).1 es).1 := by
  simp only [runEvents]

theorem statusTrace_getLast (es : List WrapperEvent) (t : DownloadTask) :
    (statusTrace t es).getLast? = some (runEvents t es).1.status := by
  induction es generalizing t with
  | nil => rfl
  | cons e es ih =>
    obtain ⟨b, l, hbl⟩ : ∃ b l, statusTrace (stepEvent t e).1 es = b :: l := by
      cases es with
      | nil => exact ⟨_, _, rfl⟩
      | cons e2 es2 => exact ⟨_, _, rfl⟩
    rw [statusTrace, hbl, List.getLast?_cons_cons, ← hbl, ih, runEvents_cons_fst]

theorem stepEvent_sf (t : DownloadTask) (e : WrapperEvent) :
    ((stepEvent t e).1.status, (stepEvent t e).1.cancelFlag) =
      stepSFK (t.status, t.cancelFlag) (evKind e) := by
  cases e with
  | progress p => rfl
  | complete f =>
    by_cases hc : t.cancelFlag = false <;>
      simp [stepEvent, stepSFK, evKind, hc]
  | userPause =>
    by_cases hp : t.status = .downloading ∨ t.status = .queued <;>
      simp [stepEvent, pauseTask, stepSFK, evKind, hp]
  | userResume =>
    by_cases hp : t.status = .paused <;>
      simp [stepEvent, resumeTask, stepSFK, evKind, hp]
  | userCancel =>
    by_cases hp : t.status = .completed ∨ t.status = .canceled ∨ t.status = .error <;>
      simp [stepEvent, cancelTask, canceledOf, stepSFK, evKind, hp]

theorem stepSFK_ok : ∀ p : DStatus × Bool, ∀ k : EvKind, runInvB p →
    runInvB (stepSFK p k) ∧ stepOk amendedTransB p.1 (stepSFK p k).1 := by
  decide

theorem stepEvent_runInv (t : DownloadTask) (e : WrapperEvent) (h : RunInv t) :
    RunInv (stepEvent t e).1
    ∧ stepOk amendedTransB t.status (stepEvent t e).1.status := by
  have hsf := stepEvent_sf t e
  have h0 : runInvB (t.status, t.cancelFlag) := h
  have h1 := stepSFK_ok (t.status, t.cancelFlag) (evKind e) h0
  rw [← hsf] at h1
  exact h1

theorem stepEvent_not_completed (t : DownloadTask) (e : WrapperEvent)
    (he : ∀ f, e ≠ .complete f) (h : t.status ≠ .completed) :
    (stepEvent t e).1.status ≠ .completed := by
  cases e with
  | progress p => exact h
  | complete f => exact absurd rfl (he f)
  | userPause =>
    rw [stepEvent, pauseTask]
    by_cases hp : t.status = .downloading ∨ t.status = .queued
    · rw [if_pos hp]
      exact fun hx => nomatch hx
    · rw [if_neg hp]
      exact h
  | userResume =>
    rw [stepEvent, resumeTask]
    by_cases hp : t.status = .paused
    · rw [if_pos hp]
      exact fun hx => nomatch hx
    · rw [if_neg hp]
      exact h
  | userCancel =>
    rw [stepEvent, cancelTask]
    by_cases hp : t.status = .completed ∨ t.status = .canceled ∨ t.status = .error
    · rw [if_pos hp]
      exact h
    · rw [if_neg hp]
      exact fun hx => nomatch hx

theorem statusTrace_chain (events : List WrapperEvent) (t : DownloadTask)
    (h : RunInv t) :
    List.Chain' (stepOk amendedTransB) (statusTrace t events)
    ∧ RunInv (runEvents t events).1
    ∧ ((∀ f, WrapperEvent.complete f ∉ events) → t.status ≠ .completed →
        (runEvents t events).1.status ≠ .completed) := by
  induction events generalizing t with
  | nil =>
    refine ⟨List.chain'_singleton _, h, fun _ hne => hne⟩
  | cons e es ih =>
    obtain ⟨hinv', hstep⟩ := stepEvent_runInv t e h
    obtain ⟨ih1, ih2, ih4⟩ := ih (stepEvent t e).1 hinv'
    refine ⟨?_, ?_, ?_⟩
    · rw [statusTrace, List.chain'_cons']
      refine ⟨?_, ih1⟩
      intro b hb
      rw [statusTrace_head] at hb
      cases hb
      exact hstep
    · rw [runEvents_cons_fst]
      exact ih2
    · intro hnc hne
      rw [runEvents_cons_fst]
      refine ih4 (fun f hf => hnc f (List.mem_cons_of_mem _ hf)) ?_
      exact stepEvent_not_completed t e
        (fun f hf => hnc f (hf ▸ List.mem_cons_self _ _)) hne

theorem downloadRun_chain_aux (t1 : DownloadTask) (events : List WrapperEvent)
    (success : Bool) (h1 : t1.status = .downloading) (h2 : t1.cancelFlag = false)
    (hc : success = false → ∀ f, WrapperEvent.complete f ∉ events) :
    List.Chain' (stepOk amendedTransB)
      (DStatus.queued ::
        (statusTrace t1 events ++
          [(resolveTask (runEvents t1 events).1 success).1.status])) := by
  have hinv : RunInv t1 := ⟨Or.inl h1, by rw [h1, h2]; simp⟩
  obtain ⟨hchain, hinv2, hncomp⟩ := statusTrace_chain events t1 hinv
  obtain ⟨l0, hshape⟩ : ∃ l0, statusTrace t1 events = t1.status :: l0 := by
    cases events with
    | nil => exact ⟨[], rfl⟩
    | cons e es => exact ⟨_, rfl⟩
  rw [List.chain'_cons']
  constructor
  · intro b hb
    rw [hshape, List.cons_append, List.head?_cons] at hb
    have hb' : t1.status = b := by simpa using hb
    subst hb'
    rw [h1]
    exact Or.inr rfl
  · rw [List.chain'_append]
    refine ⟨hchain, List.chain'_singleton _, ?_⟩
    intro x hx y hy
    rw [statusTrace_getLast] at hx
    rw [List.head?_cons] at hy
    have hx' : (runEvents t1 events).1.status = x := by simpa using hx
    have hy' : (resolveTask (runEvents t1 events).1 success).1.status = y := by
      simpa using hy
    subst hx'
    subst hy'
    revert hinv2 hncomp
    generalize (runEvents t1 events).1 = t2
    intro hinv2 hncomp
    cases success with
    | true =>
      exact Or.inl (by simp [resolveTask])
    | false =>
      have hnc := hc rfl
      have ht2 : t2.status ≠ .completed := hncomp hnc (by rw [h1]; simp)
      obtain ⟨hset, hiff⟩ := hinv2
      by_cases hcf : t2.cancelFlag = true
      · have hst := hiff.mpr hcf
        rw [resolveTask]
        simp only [hcf]
        rw [hst]
        exact Or.inl (by simp)
      · have hcf' : t2.cancelFlag = false := by
          cases hcv : t2.cancelFlag
          · rfl
          · exact absurd hcv hcf
        have hst : t2.status ≠ .canceled := fun h => hcf (hiff.mp h)
        rw [resolveTask]
        simp only [hcf']
        rcases hset with hs1 | hs1 | hs1 | hs1
        · rw [hs1]
          exact Or.inr rfl
        · rw [hs1]
          exact Or.inr rfl
        · exact absurd hs1 hst
        · exact absurd hs1 ht2

/-- C3 counterexample: pausing during the wrapper call and then having the
wrapper fail drives the task `paused → error`, a transition the spec's
state machine does not list (it allows `error` only from `downloading`). -/
theorem c3_counterexample :
    downloadRunTrace "d1" sampleVideo FormatType.mp4 [WrapperEvent.userPause] false
      = [DStatus.queued, DStatus.downloading, DStatus.paused, DStatus.error]
    ∧ ¬ List.Chain' (stepOk specTransB)
        (downloadRunTrace "d1" sampleVideo FormatType.mp4
          [WrapperEvent.userPause] false) := by
  constructor
  · rfl
  · intro h
    have he : downloadRunTrace "d1" sampleVideo FormatType.mp4
        [WrapperEvent.userPause] false =
        [DStatus.queued, DStatus.downloading, DStatus.paused, DStatus.error] := rfl
    rw [he, List.chain'_cons, List.chain'_cons, List.chain'_cons] at h
    obtain ⟨-, -, h3, -⟩ := h
    rcases h3 with h3 | h3
    · exact absurd h3 (by decide)
    · exact absurd h3 (by decide)

/-- C3 (amended): every status change performed by the standalone
pause/resume/cancel operations is a spec transition; over a whole
`downloadVideo` run (the wrapper reporting completion only on success),
every consecutive status pair is a stutter or a transition of the spec's
machine extended with `paused → completed` and `paused → error` — pause is
cooperative, so wrapper completion or failure can land on a paused task. -/
theorem c3_transitions :
    (∀ t : DownloadTask, (pauseTask t).1.status = t.status
        ∨ specTransB t.status (pauseTask t).1.status = true)
    ∧ (∀ t : DownloadTask, (resumeTask t).1.status = t.status
        ∨ specTransB t.status (resumeTask t).1.status = true)
    ∧ (∀ t : DownloadTask, (cancelTask t).1.status = t.status
        ∨ specTransB t.status (cancelTask t).1.status = true)
    ∧ (∀ downloadId video formatType events success,
        (success = false → ∀ f, WrapperEvent.complete f ∉ events) →
        List.Chain' (stepOk amendedTransB)
          (downloadRunTrace downloadId video formatType events success)) := by
  refine ⟨?_, ?_, ?_, ?_⟩
  · intro t
    by_cases hp : t.status = .downloading ∨ t.status = .queued
    · right
      rw [pauseTask, if_pos hp]
      rcases hp with h | h <;> rw [h] <;> rfl
    · left
      rw [pauseTask, if_neg hp]
  · intro t
    by_cases hp : t.status = .paused
    · right
      rw [resumeTask, if_pos hp, hp]
      rfl
    · left
      rw [resumeTask, if_neg hp]
  · intro t
    by_cases hp : t.status = .completed ∨ t.status = .canceled ∨ t.status = .error
    · left
      rw [cancelTask, if_pos hp]
    · right
      rw [cancelTask, if_neg hp]
      cases ht : t.status with
      | queued => rfl
      | downloading => rfl
      | paused => rfl
      | completed => exact absurd (Or.inl ht) hp
      | canceled => exact absurd (Or.inr (Or.inl ht)) hp
      | error => exact absurd (Or.inr (Or.inr ht)) hp
  · intro downloadId video formatType events success hc
    rw [downloadRunTrace]
    exact downloadRun_chain_aux _ events success rfl rfl hc

end YTD
